import Mathlib

/-!
# Verification of the gitlab-client core (`src/index.js`)

Shallow embedding of the request executor (`_request`), the paginator
(`_paginatedRequest`) and the constructor of `GitLabAPI`, together with the
typed error hierarchy (`GitLabAPIError` and its three subclasses).

Modelling conventions:

* JSON values are the inductive `Json`; JavaScript `null` is `Json.null`.
* A JavaScript truthiness test (`if (data)`, `options.per_page || 100`,
  `if (totalPagesHeader)`, `if (totalPages && ...)`) is modelled by an
  explicit truthiness function on the corresponding type.
* An HTTP response delivered by `fetch` is the record `HttpResponse`:
  its status, its headers, and the results of its `json()` and `text()`
  body readers, each an `Option` (`none` = that reader throws).
* `response.headers.get` is association-list lookup (`headerGet`).
* JavaScript object spread `{a: x, b: y, ...o}` over header objects is
  modelled by list append with last-wins lookup (`jsObjGet`).
* `parseInt(s, 10)` is `jsParseInt`; a `NaN` result is modelled as `none`
  (for the paginator's `totalPages`/`totalItems` state, `NaN` and `null`
  are both falsy and neither ever satisfies the `page >= totalPages`
  comparison, so the two are observationally equal in every claim below).
* The paginator's network interaction is abstracted by a function
  `pages : Nat -> HttpResponse` giving the response that the server
  returns for the request with query parameter `page=k`; the textual
  construction of the query string is not observable in any claim.
* The `while (true)` loop of `_paginatedRequest` is given fuel; `none`
  means the fuel ran out. Every theorem supplies enough fuel. The loop
  result is paired with the number of HTTP requests performed, so that
  "exactly one request" statements can be made.
-/

/-- JSON values, the payloads moving through the client. -/
inductive Json where
  | null : Json
  | bool : Bool → Json
  | num : Int → Json
  | str : String → Json
  | arr : List Json → Json
  | obj : List (String × Json) → Json
deriving Repr

/-- JavaScript truthiness of a JSON value (`if (data)` in `_request`):
`null`, `false`, `0` and `""` are falsy, everything else truthy. -/
def Json.truthy : Json → Bool
  | .null => false
  | .bool b => b
  | .num n => n != 0
  | .str s => s != ""
  | .arr _ => true
  | .obj _ => true

mutual

/-- `JSON.stringify`, as far as the claims observe it (the claims only ever
compare a serialized body for presence and for equality with the serialization
of the same value). -/
def Json.stringify : Json → String
  | .null => "null"
  | .bool b => if b then "true" else "false"
  | .num n => toString n
  | .str s => "\"" ++ s ++ "\""
  | .arr xs => "[" ++ Json.stringifyList xs ++ "]"
  | .obj fs => "\x7b" ++ Json.stringifyFields fs ++ "\x7d"

/-- Comma-separated serialization of an array's elements. -/
def Json.stringifyList : List Json → String
  | [] => ""
  | [x] => x.stringify
  | x :: y :: xs => x.stringify ++ "," ++ Json.stringifyList (y :: xs)

/-- Comma-separated serialization of an object's fields. -/
def Json.stringifyFields : List (String × Json) → String
  | [] => ""
  | [f] => "\"" ++ f.1 ++ "\":" ++ f.2.stringify
  | f :: g :: fs =>
      "\"" ++ f.1 ++ "\":" ++ f.2.stringify ++ "," ++ Json.stringifyFields (g :: fs)

end

/-- Header maps (`response.headers`, header objects in `fetch` options). -/
abbrev Headers := List (String × String)

/-- `headers.get(name)`: `none` models JavaScript `null`/`undefined`. -/
def headerGet (hs : Headers) (name : String) : Option String :=
  (hs.find? (fun p => p.1 == name)).map Prod.snd

/-- Lookup in a JavaScript object built by listing keys then spreading:
the *last* binding of a key wins, as in object-literal spread. -/
def jsObjGet (hs : Headers) (name : String) : Option String :=
  (hs.reverse.find? (fun p => p.1 == name)).map Prod.snd

/-- `parseInt(s, 10)`: skip leading whitespace, optional sign, longest digit
run; `none` models `NaN` (no digits). -/
def jsParseInt (s : String) : Option Int :=
  let cs := s.toList.dropWhile (fun c => c.isWhitespace)
  let (sign, rest) : Int × List Char :=
    match cs with
    | '-' :: r => (-1, r)
    | '+' :: r => (1, r)
    | r => (1, r)
  let digits := rest.takeWhile (fun c => c.isDigit)
  if digits.isEmpty then none
  else some (sign * (digits.foldl (fun n c => n * 10 + (c.toNat - 48)) 0 : Nat))

/-- An HTTP response as observed through the `fetch` API: `jsonResult` is
what `response.json()` resolves to (`none` = it rejects, e.g. a non-JSON
body) and `textResult` what `response.text()` resolves to (`none` = it
rejects, e.g. no readable body). -/
structure HttpResponse where
  status : Nat
  headers : Headers
  jsonResult : Option Json
  textResult : Option String

/-- `response.ok`: status in the inclusive range 200–299. -/
def HttpResponse.ok (r : HttpResponse) : Prop :=
  200 ≤ r.status ∧ r.status ≤ 299

instance (r : HttpResponse) : Decidable r.ok := by
  unfold HttpResponse.ok; infer_instance

/-- The client configuration built by the `GitLabAPI` constructor. -/
structure GitLabClient where
  host : String
  token : String
  apiVersion : String
  baseUrl : String
deriving Repr

/-- The mutable rate-limit telemetry fields of a client instance. -/
structure ClientState where
  rateLimitRemaining : Option String
  rateLimitReset : Option String
deriving Repr

/-- Constructor arguments (`options`); `none` models an absent property. -/
structure ClientOptions where
  host : Option String := none
  token : Option String := none
  apiVersion : Option String := none

/-- Truthiness of an optional string option (absent, `null` and `""` are
falsy). -/
def optTruthy : Option String → Bool
  | none => false
  | some s => s != ""

/-- Whether `p` is an initial segment of the character list `s`. -/
def charsMatch : List Char → List Char → Bool
  | [], _ => true
  | _ :: _, [] => false
  | c :: cs, d :: ds => c == d && charsMatch cs ds

/-- JavaScript `s.startsWith(p)`, embedded over character lists (the
builtin `String` search functions do not reduce inside the kernel). -/
def strStartsWith (s p : String) : Bool := charsMatch p.toList s.toList

namespace GitLabAPI

/-- The `GitLabAPI` constructor: validates `host` and `token`, normalizes the
host (`https://` is prepended unless the host starts with `"http"`), and
derives `baseUrl = host + "/api/" + apiVersion` with `apiVersion` defaulting
to `"v4"`. `Except.error` models the thrown `Error`. -/
def create (o : ClientOptions) : Except String GitLabClient :=
  if !optTruthy o.host then .error "GitLab host is required."
  else if !optTruthy o.token then .error "GitLab token is required."
  else
    let rawHost := o.host.getD ""
    let host := if strStartsWith rawHost "http" then rawHost else "https://" ++ rawHost
    let apiVersion := if optTruthy o.apiVersion then o.apiVersion.getD "" else "v4"
    .ok { host := host, token := o.token.getD "", apiVersion := apiVersion,
          baseUrl := host ++ "/api/" ++ apiVersion }

end GitLabAPI

/-- The discriminator of the typed error hierarchy
(`GitLabAPIError` and its three subclasses). -/
inductive GitLabErrorKind where
  | authentication
  | notFound
  | rateLimit
  | api
deriving Repr, DecidableEq

/-- A typed error: every constructor of the hierarchy stores
`(message, statusCode, responseBody, url)`. -/
structure GitLabError where
  kind : GitLabErrorKind
  message : String
  statusCode : Nat
  responseBody : String
  url : String
deriving Repr

/-- The `data` component of a successful `_request`: parsed JSON, raw text,
or `null`. -/
inductive RespData where
  | json : Json → RespData
  | text : String → RespData
  | null : RespData
deriving Repr

/-- The outcome of `_request`: a `{data, headers}` envelope, a thrown typed
error, or a rethrown transport-level failure (the only one reachable in the
embedding: `response.text()` rejecting on the non-ok path). -/
inductive RequestResult where
  | success : RespData → Headers → RequestResult
  | failure : GitLabError → RequestResult
  | transportFailure : RequestResult
deriving Repr

/-- Caller options of `_request`/`_paginatedRequest`; `headers : none`
models an `options` object without a `headers` property. -/
structure RequestOptions where
  headers : Option Headers := none
  per_page : Option Nat := none
  query : Headers := []

/-- The outgoing request assembled by `_request` (the argument to `fetch`). -/
structure FetchOptions where
  method : String
  headers : Headers
  body : Option String
deriving Repr

/-- The headers object of the outgoing request. The code writes
`{ method, headers: {PRIVATE-TOKEN, Content-Type, ...options.headers}, ...options }`:
the inner spread merges the caller's headers over the two defaults, but the
outer `...options` spread then *re-assigns* the `headers` key whenever
`options` has one, so the merged object survives only when the caller
supplied no `headers` at all. -/
def fetchHeaders (token : String) (opts : RequestOptions) : Headers :=
  let merged := [("PRIVATE-TOKEN", token), ("Content-Type", "application/json")]
      ++ opts.headers.getD []
  match opts.headers with
  | some callerHeaders => callerHeaders
  | none => merged

/-- The full `fetchOptions` object: headers as above, and
`if (data) fetchOptions.body = JSON.stringify(data)` (a truthiness test,
performed after the spreads, so the body is never clobbered). -/
def buildFetchOptions (token : String) (method : String) (data : Json)
    (opts : RequestOptions) : FetchOptions :=
  { method := method,
    headers := fetchHeaders token opts,
    body := if data.truthy then some data.stringify else none }

/-- The unconditional rate-limit telemetry update performed on every response:
both fields are overwritten with `response.headers.get(...)`. -/
def rateLimitUpdate (st : ClientState) (r : HttpResponse) : ClientState :=
  { st with
    rateLimitRemaining := headerGet r.headers "RateLimit-Remaining",
    rateLimitReset := headerGet r.headers "RateLimit-Reset" }

/-- The `data` produced for a 2xx response: `response.json()` if it succeeds,
else `response.text()` if it succeeds, else `null`. -/
def respData (r : HttpResponse) : RespData :=
  match r.jsonResult with
  | some j => .json j
  | none =>
    match r.textResult with
    | some t => .text t
    | none => .null

/-- Classification of one response by `_request`: on `response.ok` build the
`{data, headers}` envelope, otherwise read the body text and throw the typed
error selected by the status code (401, 404, 429, other). If `text()` itself
rejects on the non-ok path, the rejection propagates as a transport failure. -/
def requestResult (c : GitLabClient) (endpoint : String) (r : HttpResponse) :
    RequestResult :=
  let url := c.baseUrl ++ "/" ++ endpoint
  if r.ok then
    .success (respData r) r.headers
  else
    match r.textResult with
    | none => .transportFailure
    | some errorText =>
      if r.status = 401 then
        .failure ⟨.authentication, "Authentication failed: " ++ errorText,
          r.status, errorText, url⟩
      else if r.status = 404 then
        .failure ⟨.notFound, "Resource not found: " ++ errorText,
          r.status, errorText, url⟩
      else if r.status = 429 then
        .failure ⟨.rateLimit, "Rate limit exceeded: " ++ errorText,
          r.status, errorText, url⟩
      else
        .failure ⟨.api, "HTTP error " ++ toString r.status ++ ": " ++ errorText,
          r.status, errorText, url⟩

namespace GitLabAPI

/-- `_request(method, endpoint, data, options)` applied to the response `resp`
that `fetch` resolves to: returns the outgoing `fetchOptions`, the updated
rate-limit state, and the classified outcome. -/
def request (c : GitLabClient) (st : ClientState) (method endpoint : String)
    (data : Json) (opts : RequestOptions) (resp : HttpResponse) :
    FetchOptions × ClientState × RequestResult :=
  (buildFetchOptions c.token method data opts,
   rateLimitUpdate st resp,
   requestResult c endpoint resp)

end GitLabAPI

/-- `Array.isArray(responseData)` together with the elements when it holds:
only a JSON array payload is a sequence; text and `null` payloads are not. -/
def RespData.asArray : RespData → Option (List Json)
  | .json (.arr xs) => some xs
  | _ => none

/-- The paginator's header-driven metadata update
`const h = headers?.get(name); if (h) { v = parseInt(h, 10); }`:
an absent or empty (falsy) header keeps the previous value, a nonempty
header overwrites it with the `parseInt` result. -/
def hdrIntUpdate (hs : Headers) (name : String) (prev : Option Int) : Option Int :=
  match headerGet hs name with
  | some s => if s != "" then jsParseInt s else prev
  | none => prev

/-- Truthiness of the paginator's `totalPages` state
(`if (totalPages && ...)`): `null`/`NaN` and `0` are falsy. -/
def intTruthy : Option Int → Bool
  | none => false
  | some t => t != 0

/-- The value `_paginatedRequest` resolves to: the raw non-array payload
(early return), the collection envelope
`{items, currentPage, totalPages, totalItems, headers}`, or a rethrown
error from `_request`. -/
inductive PagOutcome where
  | raw : RespData → PagOutcome
  | envelope : (items : List Json) → (currentPage : Nat) →
      (totalPages totalItems : Option Int) → (headers : Headers) → PagOutcome
  | error : GitLabError → PagOutcome
  | transportError : PagOutcome
deriving Repr

/-- Whether the paginator returned a raw payload (the non-array early
return) rather than an envelope or an error. -/
def PagOutcome.isRaw : PagOutcome → Bool
  | .raw _ => true
  | _ => false

/-- The `while (true)` loop of `_paginatedRequest`, one constructor case per
iteration, carrying the loop state `(page, allItems, totalPages, totalItems)`.
`pages k` is the response the server gives to the request for page `k`
(the query string built from `options.query` with `page`/`per_page`
overridden is not otherwise observable). The result is the loop outcome
paired with the number of requests performed; `none` means the fuel ran out.
The source's `currentPage += 1; break` followed by `currentPage - 1` in the
envelope makes the reported `currentPage` the number of the page that was
being processed when the loop stopped. -/
def paginateLoop (c : GitLabClient) (endpoint : String)
    (pages : Nat → HttpResponse) (perPage : Nat) :
    Nat → Nat → List Json → Option Int → Option Int → Option (PagOutcome × Nat)
  | 0, _, _, _, _ => none
  | fuel + 1, page, acc, tp, ti =>
    match requestResult c endpoint (pages page) with
    | .transportFailure => some (.transportError, 1)
    | .failure e => some (.error e, 1)
    | .success d hs =>
      match d.asArray with
      | none => some (.raw d, 1)
      | some xs =>
        let acc2 := acc ++ xs
        let tp2 := hdrIntUpdate hs "X-Total-Pages" tp
        let ti2 := hdrIntUpdate hs "X-Total" ti
        if xs.length < perPage then
          some (.envelope acc2 page tp2 ti2 hs, 1)
        else if intTruthy tp2 && decide ((page : Int) ≥ tp2.getD 0) then
          some (.envelope acc2 page tp2 ti2 hs, 1)
        else
          match paginateLoop c endpoint pages perPage fuel (page + 1) acc2 tp2 ti2 with
          | some (o, n) => some (o, n + 1)
          | none => none

/-- The effective page size `options.per_page || 100` (truthiness: an absent
or zero `per_page` falls back to 100). -/
def RequestOptions.perPage (o : RequestOptions) : Nat :=
  match o.per_page with
  | some n => if n != 0 then n else 100
  | none => 100

namespace GitLabAPI

/-- `_paginatedRequest(method, endpoint, data, options)` run against the
server behaviour `pages`: initial state is
`allItems = [], currentPage = 1, totalPages = null, totalItems = null`. -/
def paginatedRequest (c : GitLabClient) (endpoint : String)
    (pages : Nat → HttpResponse) (opts : RequestOptions) (fuel : Nat) :
    Option (PagOutcome × Nat) :=
  paginateLoop c endpoint pages opts.perPage fuel 1 [] none none

end GitLabAPI

/-! ## Helper lemmas and concrete fixtures -/

/-! ## Concrete fixtures used by the claim theorems and witnesses -/

/-- A sample client configuration (the one the repository's test suite
constructs). -/
def cEx : GitLabClient :=
  { host := "https://gitlab.example.com", token := "tok",
    apiVersion := "v4", baseUrl := "https://gitlab.example.com/api/v4" }

/-- A 2xx response whose JSON body is the array `xs`, with headers `hs`. -/
def okArr (xs : List Json) (hs : Headers) : HttpResponse :=
  { status := 200, headers := hs, jsonResult := some (.arr xs),
    textResult := none }

/-- A 2xx response whose JSON body is a single object. -/
def okObjResp : HttpResponse :=
  { status := 200, headers := [], jsonResult := some (.obj [("id", .num 1)]),
    textResult := none }

/-- A 404 response with body text "Not Found", as in the repository's own
test suite. -/
def respNotFound : HttpResponse :=
  { status := 404, headers := [], jsonResult := none,
    textResult := some "Not Found" }

/-- A 204-style response with no readable body at all. -/
def respNoContent : HttpResponse :=
  { status := 204, headers := [], jsonResult := none, textResult := none }

/-- The claim's side condition "the host string contains a URL scheme",
stated from the claim's words for comparison with the source's
`startsWith("http")` test: a scheme is a letter followed by letters, digits,
`+`, `-` or `.`, terminated by `:` (the URI grammar). -/
def hasUrlScheme (s : String) : Bool :=
  match s.toList with
  | [] => false
  | c :: rest =>
    c.isAlpha &&
      ((rest.dropWhile
          (fun d => d.isAlpha || d.isDigit || d == '+' || d == '-' || d == '.')).head?
        == some ':')

/-- Concatenation of the page arrays `A page, A (page+1), ..., A (page+n-1)`
in page order. -/
def concatPages (A : Nat → List Json) (page : Nat) : Nat → List Json
  | 0 => []
  | n + 1 => A page ++ concatPages A (page + 1) n

/-- Pages for the C1 counterexample: with `per_page = 2`, page 1 is exactly
full and carries `X-Total-Pages: 1`; page 2 is short (one element). -/
def c1pages : Nat → HttpResponse := fun k =>
  if k = 1 then okArr [.num 1, .num 2] [("X-Total-Pages", "1")]
  else okArr [.num 3] []

/-- Pages for the C1 witness: with `per_page = 2`, page 1 is exactly full
with no headers, page 2 is short. -/
def c1bpages : Nat → HttpResponse := fun k =>
  if k = 1 then okArr [.num 1, .num 2] [] else okArr [.num 3] []

/-- The page contents of `c1bpages`. -/
def c1A : Nat → List Json := fun k =>
  if k = 1 then [.num 1, .num 2] else [.num 3]

/-- One exactly-full page (`per_page = 2`) whose response carries
`X-Total-Pages: 1`. -/
def c2pages : Nat → HttpResponse := fun _ =>
  okArr [.num 1, .num 2] [("X-Total-Pages", "1")]

/-- The page contents of `c2pages`. -/
def c2A : Nat → List Json := fun _ => [.num 1, .num 2]

/-- Pages for the C10 counterexample: with `per_page = 1`, page 1 is exactly
full and carries `X-Total-Pages: 1`; page 2 would be a non-array object. -/
def c10pages : Nat → HttpResponse := fun k =>
  if k = 1 then okArr [.num 1] [("X-Total-Pages", "1")]
  else okObjResp

/-- Pages for the C10 witness: with `per_page = 2`, page 1 is exactly full
with no headers; page 2 is a single non-array object. -/
def c10bpages : Nat → HttpResponse := fun k =>
  if k = 1 then okArr [.num 1, .num 2] [] else okObjResp

/-- The array contents of the full pages of `c10bpages`. -/
def c10A : Nat → List Json := fun _ => [.num 1, .num 2]

/-- On an ok response `_request` builds the success envelope from the
json/text/null cascade and the response headers. -/
theorem requestResult_ok (c : GitLabClient) (endpoint : String)
    (r : HttpResponse) (h : r.ok) :
    requestResult c endpoint r = .success (respData r) r.headers := by
  simp [requestResult, h]

theorem okArr_ok (xs : List Json) (hs : Headers) : (okArr xs hs).ok := by
  constructor <;> simp [okArr]

theorem okArr_data (xs : List Json) (hs : Headers) :
    (respData (okArr xs hs)).asArray = some xs := rfl


/-! ## C4, C5, C6, C7: the request executor -/

/-- C4: every non-2xx response (whose body text reads as `b`) makes
`_request` throw exactly one typed error chosen by the status code —
401 an authentication error with message `"Authentication failed: " + b`,
404 a not-found error with `"Resource not found: " + b`, 429 a rate-limit
error with `"Rate limit exceeded: " + b`, and any other non-2xx status the
base API error with `"HTTP error " + status + ": " + b` — and each of the
four carries the exact status code, the response body text, and the
fully-qualified request URL. -/
theorem c4_typed_error_mapping (c : GitLabClient) (endpoint : String)
    (r : HttpResponse) (b : String)
    (hok : ¬ r.ok) (hb : r.textResult = some b) :
    requestResult c endpoint r = .failure
      (if r.status = 401 then
        ⟨.authentication, "Authentication failed: " ++ b, r.status, b,
          c.baseUrl ++ "/" ++ endpoint⟩
      else if r.status = 404 then
        ⟨.notFound, "Resource not found: " ++ b, r.status, b,
          c.baseUrl ++ "/" ++ endpoint⟩
      else if r.status = 429 then
        ⟨.rateLimit, "Rate limit exceeded: " ++ b, r.status, b,
          c.baseUrl ++ "/" ++ endpoint⟩
      else
        ⟨.api, "HTTP error " ++ toString r.status ++ ": " ++ b, r.status, b,
          c.baseUrl ++ "/" ++ endpoint⟩) := by
  simp only [requestResult, if_neg hok, hb]
  split_ifs <;> rfl

/-- Witness for C4: the 404 response yields the not-found error carrying
status 404, the body text and the full URL. -/
theorem c4_typed_error_mapping_witness :
    ¬ respNotFound.ok ∧
    requestResult cEx "projects" respNotFound = .failure
      ⟨.notFound, "Resource not found: Not Found", 404, "Not Found",
        "https://gitlab.example.com/api/v4/projects"⟩ := by
  refine ⟨by decide, ?_⟩
  have h := c4_typed_error_mapping cEx "projects" respNotFound "Not Found"
    (by decide) rfl
  exact h

/-- C5 (code bug): the code builds the merged headers object
`{PRIVATE-TOKEN, Content-Type, ...options.headers}` but then spreads
`...options` over the whole `fetchOptions` literal, so whenever the caller
supplies `options.headers` the merged object is replaced wholesale by the
caller's headers: the default `PRIVATE-TOKEN` and `Content-Type` entries are
dropped rather than kept for names the caller did not supply. Only when the
caller supplies no `headers` key do the two defaults reach the wire. -/
theorem c5_caller_headers_drop_defaults :
    (buildFetchOptions "tok" "GET" Json.null
        { headers := some [("Accept", "text/plain")] }).headers
      = [("Accept", "text/plain")] ∧
    jsObjGet (buildFetchOptions "tok" "GET" Json.null
        { headers := some [("Accept", "text/plain")] }).headers "PRIVATE-TOKEN"
      = none ∧
    jsObjGet (buildFetchOptions "tok" "GET" Json.null { }).headers
      "PRIVATE-TOKEN" = some "tok" ∧
    jsObjGet (buildFetchOptions "tok" "GET" Json.null { }).headers
      "Content-Type" = some "application/json" :=
  ⟨rfl, rfl, rfl, rfl⟩

/-- C6: after every response processed by `_request`, the client's
rate-limit fields equal exactly the `RateLimit-Remaining` and
`RateLimit-Reset` header values of that most recent response (an absent
header leaves the field `null`); in particular after two consecutive
requests the state matches the second response only, whatever the first
response carried. -/
theorem c6_rate_limit_last_write_wins (c : GitLabClient) (st : ClientState)
    (m1 e1 m2 e2 : String) (d1 d2 : Json) (o1 o2 : RequestOptions)
    (r1 r2 : HttpResponse) :
    (GitLabAPI.request c
        (GitLabAPI.request c st m1 e1 d1 o1 r1).2.1 m2 e2 d2 o2 r2).2.1
      = { rateLimitRemaining := headerGet r2.headers "RateLimit-Remaining",
          rateLimitReset := headerGet r2.headers "RateLimit-Reset" } := rfl

/-- C7: every 2xx response is returned as a success whose data is produced
by exactly one of three mutually exclusive outcomes tried in order — the
parsed JSON when `json()` succeeds, otherwise the body text when `text()`
succeeds, otherwise `null` — and a body readable by neither reader is still
a success, with a `null` payload, never an error. -/
theorem c7_success_cascade (c : GitLabClient) (endpoint : String)
    (r : HttpResponse) (hok : r.ok) :
    requestResult c endpoint r = .success (respData r) r.headers ∧
    (∀ j, r.jsonResult = some j → respData r = .json j) ∧
    (∀ t, r.jsonResult = none → r.textResult = some t → respData r = .text t) ∧
    (r.jsonResult = none → r.textResult = none → respData r = .null) := by
  refine ⟨requestResult_ok c endpoint r hok, ?_, ?_, ?_⟩
  · intro j hj
    simp [respData, hj]
  · intro t hj ht
    simp [respData, hj, ht]
  · intro hj ht
    simp [respData, hj, ht]

/-- Witness for C7: the bodyless 204 response is a success with `null`
data, not an error. -/
theorem c7_success_cascade_witness :
    respNoContent.ok ∧
    requestResult cEx "projects" respNoContent = .success .null [] := by
  refine ⟨by decide, ?_⟩
  have h := (c7_success_cascade cEx "projects" respNoContent (by decide)).1
  exact h

/-! ## C8: host normalization, C9: body attachment -/

/-- C8 counterexample: the host `"httpbin.org"` has no URL scheme, so the
claim predicts `baseUrl = "https://httpbin.org/api/v4"`; but the code tests
`startsWith("http")`, which this schemeless host satisfies, so no prefix is
added and the constructor yields `baseUrl = "httpbin.org/api/v4"`. -/
theorem c8_counterexample :
    hasUrlScheme "httpbin.org" = false ∧
    GitLabAPI.create { host := some "httpbin.org", token := some "tok" }
      = .ok { host := "httpbin.org", token := "tok", apiVersion := "v4",
              baseUrl := "httpbin.org/api/v4" } ∧
    ("httpbin.org/api/v4" : String) ≠ "https://httpbin.org/api/v4" := by
  refine ⟨rfl, rfl, by decide⟩

/-- C8 amended: the constructor prepends `https://` exactly when the host
string does not start with the four characters `"http"` (rather than when it
lacks a URL scheme); a host starting with `"http"` is left unmodified. In
both cases `baseUrl` is the normalized host followed by `"/api/"` and the
apiVersion, which defaults to `"v4"`. -/
theorem c8_amended (host token : String) (hh : host ≠ "") (ht : token ≠ "") :
    (strStartsWith host "http" = false →
      GitLabAPI.create { host := some host, token := some token }
        = .ok { host := "https://" ++ host, token := token, apiVersion := "v4",
                baseUrl := "https://" ++ host ++ "/api/" ++ "v4" }) ∧
    (strStartsWith host "http" = true →
      GitLabAPI.create { host := some host, token := some token }
        = .ok { host := host, token := token, apiVersion := "v4",
                baseUrl := host ++ "/api/" ++ "v4" }) := by
  constructor <;> intro hs <;>
    simp [GitLabAPI.create, optTruthy, hh, ht, hs, String.append_assoc]

/-- Witness for C8 amended: a schemeless host not starting with `"http"`
is prefixed, and a host with an explicit `http://` scheme is untouched. -/
theorem c8_amended_witness :
    ("gitlab.example.com" : String) ≠ "" ∧
    GitLabAPI.create { host := some "gitlab.example.com", token := some "tok" }
      = .ok { host := "https://gitlab.example.com", token := "tok",
              apiVersion := "v4",
              baseUrl := "https://gitlab.example.com/api/v4" } := by
  refine ⟨by decide, ?_⟩
  have h := (c8_amended "gitlab.example.com" "tok" (by decide) (by decide)).1 rfl
  simpa using h

/-- C9 counterexample: the payload `0` is non-null, yet
`if (data) fetchOptions.body = JSON.stringify(data)` tests truthiness, and
`0` is falsy, so no body is attached — refuting "attached if and only if
non-null". -/
theorem c9_counterexample :
    Json.num 0 ≠ Json.null ∧
    (buildFetchOptions "tok" "POST" (Json.num 0) { }).body = none := by
  exact ⟨fun h => Json.noConfusion h, rfl⟩

/-- C9 amended: a request body is serialized to JSON text and attached if
and only if the supplied payload is *truthy* (non-null and also not `false`,
`0` or `""`); in particular a `null` payload attaches no body. -/
theorem c9_amended (token method : String) (data : Json)
    (opts : RequestOptions) :
    ((buildFetchOptions token method data opts).body = some data.stringify
      ↔ data.truthy = true) ∧
    ((buildFetchOptions token method data opts).body = none
      ↔ data.truthy = false) ∧
    (buildFetchOptions token method Json.null opts).body = none := by
  unfold buildFetchOptions
  refine ⟨?_, ?_, rfl⟩ <;> constructor <;> intro h <;>
    by_cases hd : data.truthy <;> simp_all

/-! ## C3: non-array payloads pass through the paginator unchanged -/

/-- One loop iteration on a page whose 2xx payload is not an array: the
paginator returns the payload as-is, with one request performed. -/
theorem paginateLoop_raw_step (c : GitLabClient) (endpoint : String)
    (pages : Nat → HttpResponse) (perPage fuel page : Nat) (acc : List Json)
    (tp ti : Option Int) (hok : (pages page).ok)
    (hna : (respData (pages page)).asArray = none) :
    paginateLoop c endpoint pages perPage (fuel + 1) page acc tp ti
      = some (.raw (respData (pages page)), 1) := by
  unfold paginateLoop
  rw [requestResult_ok c endpoint (pages page) hok]
  simp [hna]

/-- C3: when the very first page's 2xx response carries a data payload that
is not an array (an object, a string via the text fallback, or `null`),
`_paginatedRequest` returns that payload unchanged — no collection envelope,
no `items` field — after exactly one request. -/
theorem c3_non_array_passthrough (c : GitLabClient) (endpoint : String)
    (pages : Nat → HttpResponse) (opts : RequestOptions) (fuel : Nat)
    (hfuel : 1 ≤ fuel) (hok : (pages 1).ok)
    (hna : (respData (pages 1)).asArray = none) :
    GitLabAPI.paginatedRequest c endpoint pages opts fuel
      = some (.raw (respData (pages 1)), 1) := by
  obtain ⟨f, rfl⟩ : ∃ f, fuel = f + 1 := ⟨fuel - 1, by omega⟩
  exact paginateLoop_raw_step c endpoint pages opts.perPage f 1 [] none none
    hok hna

/-- Witness for C3: a single-object response passes through untouched. -/
theorem c3_non_array_passthrough_witness :
    (1 : Nat) ≤ 10 ∧
    GitLabAPI.paginatedRequest cEx "projects" (fun _ => okObjResp) { } 10
      = some (.raw (.json (.obj [("id", .num 1)])), 1) := by
  refine ⟨by decide, ?_⟩
  have h := c3_non_array_passthrough cEx "projects" (fun _ => okObjResp) { } 10
    (by decide) (by constructor <;> simp [okObjResp]) rfl
  exact h

/-! ## Pagination traversal lemmas -/

theorem concatPages_snoc (A : Nat → List Json) (page n : Nat) :
    concatPages A page n ++ A (page + n) = concatPages A page (n + 1) := by
  induction n generalizing page with
  | zero => simp [concatPages]
  | succ n ih =>
    have e : page + (n + 1) = (page + 1) + n := by omega
    simp [concatPages, List.append_assoc, e, ih (page + 1)]

/-- One loop iteration on an exactly-full page carrying no `X-Total-Pages`
header, with the `totalPages` state still null: the loop appends the page's
elements and recurses on the next page number, counting one more request. -/
theorem paginateLoop_full_step (c : GitLabClient) (endpoint : String)
    (pages : Nat → HttpResponse) (perPage fuel page : Nat) (acc : List Json)
    (ti : Option Int) (xs : List Json)
    (hok : (pages page).ok)
    (harr : (respData (pages page)).asArray = some xs)
    (hlen : xs.length = perPage)
    (hnh : headerGet (pages page).headers "X-Total-Pages" = none) :
    paginateLoop c endpoint pages perPage (fuel + 1) page acc none ti
      = (paginateLoop c endpoint pages perPage fuel (page + 1) (acc ++ xs) none
          (hdrIntUpdate (pages page).headers "X-Total" ti)).map
          (fun r => (r.1, r.2 + 1)) := by
  conv_lhs => rw [paginateLoop]
  rw [requestResult_ok c endpoint (pages page) hok]
  simp only [harr, hdrIntUpdate, hnh, hlen, lt_self_iff_false, if_false,
    intTruthy, Bool.false_and, Bool.false_eq_true]
  generalize paginateLoop c endpoint pages perPage fuel (page + 1) (acc ++ xs)
    none (match headerGet (pages page).headers "X-Total" with
          | some s => if s != "" then jsParseInt s else ti
          | none => ti) = res
  rcases res with _ | ⟨o, m⟩ <;> rfl

/-- One loop iteration on a short page (`length < perPage`): the loop stops
and returns the envelope for the current page, counting one request. -/
theorem paginateLoop_short_step (c : GitLabClient) (endpoint : String)
    (pages : Nat → HttpResponse) (perPage fuel page : Nat) (acc : List Json)
    (tp ti : Option Int) (xs : List Json)
    (hok : (pages page).ok)
    (harr : (respData (pages page)).asArray = some xs)
    (hlen : xs.length < perPage) :
    paginateLoop c endpoint pages perPage (fuel + 1) page acc tp ti
      = some (.envelope (acc ++ xs) page
          (hdrIntUpdate (pages page).headers "X-Total-Pages" tp)
          (hdrIntUpdate (pages page).headers "X-Total" ti)
          (pages page).headers, 1) := by
  unfold paginateLoop
  rw [requestResult_ok c endpoint (pages page) hok]
  simp [harr, hlen]

/-- One loop iteration on an exactly-full page whose headers leave the
`totalPages` state a truthy value already reached by the current page
number: the length check fails, the header check fires, and the loop stops
with the envelope for the current page. -/
theorem paginateLoop_header_stop (c : GitLabClient) (endpoint : String)
    (pages : Nat → HttpResponse) (perPage fuel page : Nat) (acc : List Json)
    (tp ti : Option Int) (xs : List Json) (t : Int)
    (hok : (pages page).ok)
    (harr : (respData (pages page)).asArray = some xs)
    (hlen : xs.length = perPage)
    (htp : hdrIntUpdate (pages page).headers "X-Total-Pages" tp = some t)
    (ht : t ≠ 0)
    (hge : t ≤ (page : Int)) :
    paginateLoop c endpoint pages perPage (fuel + 1) page acc tp ti
      = some (.envelope (acc ++ xs) page (some t)
          (hdrIntUpdate (pages page).headers "X-Total" ti)
          (pages page).headers, 1) := by
  unfold paginateLoop
  rw [requestResult_ok c endpoint (pages page) hok]
  simp [harr, hlen, htp, intTruthy, ht, hge]

/-- Traversal: `n` consecutive exactly-full pages carrying no
`X-Total-Pages` header walk the loop from `page` to `page + n`, appending
the pages' arrays in order and adding `n` requests, for some evolution of
the `totalItems` state. -/
theorem paginateLoop_skip (c : GitLabClient) (endpoint : String)
    (pages : Nat → HttpResponse) (perPage : Nat) (A : Nat → List Json)
    (n : Nat) :
    ∀ (page : Nat) (acc : List Json) (ti : Option Int) (fuel : Nat),
    n ≤ fuel →
    (∀ k, page ≤ k → k < page + n → (pages k).ok) →
    (∀ k, page ≤ k → k < page + n → (respData (pages k)).asArray = some (A k)) →
    (∀ k, page ≤ k → k < page + n → (A k).length = perPage) →
    (∀ k, page ≤ k → k < page + n →
      headerGet (pages k).headers "X-Total-Pages" = none) →
    ∃ ti2, paginateLoop c endpoint pages perPage fuel page acc none ti
      = (paginateLoop c endpoint pages perPage (fuel - n) (page + n)
          (acc ++ concatPages A page n) none ti2).map
          (fun r => (r.1, r.2 + n)) := by
  induction n with
  | zero =>
    intro page acc ti fuel _ _ _ _ _
    refine ⟨ti, ?_⟩
    simp only [Nat.sub_zero, Nat.add_zero, concatPages, List.append_nil]
    generalize paginateLoop c endpoint pages perPage fuel page acc none ti = res
    rcases res with _ | ⟨o, m⟩ <;> rfl
  | succ n ih =>
    intro page acc ti fuel hf h1 h2 h3 h4
    obtain ⟨f, rfl⟩ : ∃ f, fuel = f + 1 := ⟨fuel - 1, by omega⟩
    rw [paginateLoop_full_step c endpoint pages perPage f page acc ti (A page)
      (h1 page le_rfl (by omega)) (h2 page le_rfl (by omega))
      (h3 page le_rfl (by omega)) (h4 page le_rfl (by omega))]
    obtain ⟨ti2, heq⟩ := ih (page + 1) (acc ++ A page)
      (hdrIntUpdate (pages page).headers "X-Total" ti) f (by omega)
      (fun k hk1 hk2 => h1 k (by omega) (by omega))
      (fun k hk1 hk2 => h2 k (by omega) (by omega))
      (fun k hk1 hk2 => h3 k (by omega) (by omega))
      (fun k hk1 hk2 => h4 k (by omega) (by omega))
    refine ⟨ti2, ?_⟩
    rw [heq, Option.map_map]
    have e1 : page + 1 + n = page + (n + 1) := by omega
    have e2 : f - n = f + 1 - (n + 1) := by omega
    rw [e1, e2, List.append_assoc]
    have hfun : ((fun (r : PagOutcome × Nat) => (r.1, r.2 + 1)) ∘
        (fun (r : PagOutcome × Nat) => (r.1, r.2 + n))) =
        (fun (r : PagOutcome × Nat) => (r.1, r.2 + (n + 1))) := by
      funext r
      simp [Function.comp, Nat.add_assoc]
    rw [hfun]
    rfl

/-! ## C1: full-pages-then-short-page runs -/

/-- C1 counterexample: in the run `c1pages` every page except the last
(page 2) has exactly `per_page = 2` elements and the last has fewer, so the
claim predicts `items = [1, 2, 3]` (three elements, all pages concatenated)
and `currentPage = 2`; but page 1 carries `X-Total-Pages: 1`, the
header-driven stop fires after page 1, and the code returns the envelope
with only page 1's two items and `currentPage = 1 ≠ 2` after one request. -/
theorem c1_counterexample :
    GitLabAPI.paginatedRequest cEx "projects" c1pages { per_page := some 2 } 10
      = some (.envelope [.num 1, .num 2] 1 (some 1) none
          [("X-Total-Pages", "1")], 1) ∧
    (1 : Nat) ≠ 2 ∧ ([Json.num 1, Json.num 2].length ≠ 3) :=
  ⟨rfl, by decide, by decide⟩

/-- C1 corrected: for every run in which pages 1..N-1 are exactly full
(`per_page` elements each) and page N is shorter, *provided none of pages
1..N-1 carries an `X-Total-Pages` header* (the amendment forced by
`c1_counterexample`: such a header may stop the run early),
`_paginatedRequest` performs exactly N requests and returns an envelope
whose `items` is the concatenation of pages 1..N in page order (within-page
order preserved) and whose `currentPage` is N, the number of pages fetched.
With N = 1 and an empty first page this specializes to exactly one request
returning `{items: [], currentPage: 1}`. -/
theorem c1_amended (c : GitLabClient) (endpoint : String)
    (pages : Nat → HttpResponse) (opts : RequestOptions) (A : Nat → List Json)
    (N fuel : Nat) (hN : 1 ≤ N) (hfuel : N ≤ fuel)
    (hok : ∀ k, 1 ≤ k → k ≤ N → (pages k).ok)
    (harr : ∀ k, 1 ≤ k → k ≤ N → (respData (pages k)).asArray = some (A k))
    (hfull : ∀ k, 1 ≤ k → k < N → (A k).length = opts.perPage)
    (hnh : ∀ k, 1 ≤ k → k < N →
      headerGet (pages k).headers "X-Total-Pages" = none)
    (hlast : (A N).length < opts.perPage) :
    ∃ tp ti hs, GitLabAPI.paginatedRequest c endpoint pages opts fuel
      = some (.envelope (concatPages A 1 N) N tp ti hs, N) := by
  unfold GitLabAPI.paginatedRequest
  obtain ⟨ti2, heq⟩ := paginateLoop_skip c endpoint pages opts.perPage A
    (N - 1) 1 [] none fuel (by omega)
    (fun k hk1 hk2 => hok k hk1 (by omega))
    (fun k hk1 hk2 => harr k hk1 (by omega))
    (fun k hk1 hk2 => hfull k hk1 (by omega))
    (fun k hk1 hk2 => hnh k hk1 (by omega))
  have hp : 1 + (N - 1) = N := by omega
  obtain ⟨g, hg⟩ : ∃ g, fuel - (N - 1) = g + 1 := ⟨fuel - N, by omega⟩
  rw [hp, hg] at heq
  rw [heq, paginateLoop_short_step c endpoint pages opts.perPage g N
    ([] ++ concatPages A 1 (N - 1)) none ti2 (A N)
    (hok N hN le_rfl) (harr N hN le_rfl) hlast]
  have hsnoc : concatPages A 1 (N - 1) ++ A N = concatPages A 1 N := by
    have h := concatPages_snoc A 1 (N - 1)
    rw [hp] at h
    rwa [show N - 1 + 1 = N from by omega] at h
  refine ⟨hdrIntUpdate (pages N).headers "X-Total-Pages" none,
    hdrIntUpdate (pages N).headers "X-Total" ti2, (pages N).headers, ?_⟩
  simp [List.nil_append, hsnoc, hp]

/-- Witness for C1 amended: the headerless two-page run returns the
three concatenated items with `currentPage = 2` after two requests. -/
theorem c1_amended_witness :
    (1 : Nat) ≤ 2 ∧
    (∃ tp ti hs, GitLabAPI.paginatedRequest cEx "projects" c1bpages
        { per_page := some 2 } 10
      = some (.envelope (concatPages c1A 1 2) 2 tp ti hs, 2)) := by
  refine ⟨by decide, ?_⟩
  refine c1_amended cEx "projects" c1bpages { per_page := some 2 } c1A 2 10
    (by decide) (by decide) ?_ ?_ ?_ ?_ ?_
  · intro k h1 h2
    interval_cases k <;> decide
  · intro k h1 h2
    interval_cases k <;> rfl
  · intro k h1 h2
    interval_cases k
    rfl
  · intro k h1 h2
    interval_cases k
    rfl
  · decide

/-! ## C2: the header-driven stop at page N -/

/-- C2: in a run where pages 1..N are all exactly full (so the page-length
check never fires before the header check is consulted), pages 1..N-1 carry
no `X-Total-Pages` header, and page N's response carries `X-Total-Pages`
parsing to N itself (N >= 1), the paginator stops after fetching page N —
exactly N requests, so page N+1 is never requested — because the length
check fails on the full page N (length = per_page is not < per_page) and
only then the header check `totalPages && page >= totalPages` fires. -/
theorem c2_header_stop (c : GitLabClient) (endpoint : String)
    (pages : Nat → HttpResponse) (opts : RequestOptions) (A : Nat → List Json)
    (N fuel : Nat) (s : String) (hN : 1 ≤ N) (hfuel : N ≤ fuel)
    (hok : ∀ k, 1 ≤ k → k ≤ N → (pages k).ok)
    (harr : ∀ k, 1 ≤ k → k ≤ N → (respData (pages k)).asArray = some (A k))
    (hfull : ∀ k, 1 ≤ k → k ≤ N → (A k).length = opts.perPage)
    (hnh : ∀ k, 1 ≤ k → k < N →
      headerGet (pages k).headers "X-Total-Pages" = none)
    (hhdr : headerGet (pages N).headers "X-Total-Pages" = some s)
    (hse : s ≠ "")
    (hparse : jsParseInt s = some (N : Int)) :
    ∃ ti hs2, GitLabAPI.paginatedRequest c endpoint pages opts fuel
      = some (.envelope (concatPages A 1 N) N (some (N : Int)) ti hs2, N) := by
  unfold GitLabAPI.paginatedRequest
  obtain ⟨ti2, heq⟩ := paginateLoop_skip c endpoint pages opts.perPage A
    (N - 1) 1 [] none fuel (by omega)
    (fun k hk1 hk2 => hok k hk1 (by omega))
    (fun k hk1 hk2 => harr k hk1 (by omega))
    (fun k hk1 hk2 => hfull k hk1 (by omega))
    (fun k hk1 hk2 => hnh k hk1 (by omega))
  have hp : 1 + (N - 1) = N := by omega
  obtain ⟨g, hg⟩ : ∃ g, fuel - (N - 1) = g + 1 := ⟨fuel - N, by omega⟩
  rw [hp, hg] at heq
  have htp : hdrIntUpdate (pages N).headers "X-Total-Pages" none
      = some (N : Int) := by
    simp [hdrIntUpdate, hhdr, hparse, hse]
  rw [heq, paginateLoop_header_stop c endpoint pages opts.perPage g N
    ([] ++ concatPages A 1 (N - 1)) none ti2 (A N) (N : Int)
    (hok N hN le_rfl) (harr N hN le_rfl) (hfull N hN le_rfl)
    htp (by omega) le_rfl]
  have hsnoc : concatPages A 1 (N - 1) ++ A N = concatPages A 1 N := by
    have h := concatPages_snoc A 1 (N - 1)
    rw [hp] at h
    rwa [show N - 1 + 1 = N from by omega] at h
  refine ⟨hdrIntUpdate (pages N).headers "X-Total" ti2, (pages N).headers, ?_⟩
  simp [List.nil_append, hsnoc, hp]

/-- Witness for C2 at N = 1: page 1 is full, yet the `X-Total-Pages: 1`
header stops the run after one request; page 2 is never fetched. -/
theorem c2_header_stop_witness :
    (1 : Nat) ≤ 1 ∧
    (∃ ti hs2, GitLabAPI.paginatedRequest cEx "projects" c2pages
        { per_page := some 2 } 10
      = some (.envelope (concatPages c2A 1 1) 1 (some ((1 : Nat) : Int))
          ti hs2, 1)) := by
  refine ⟨le_rfl, ?_⟩
  refine c2_header_stop cEx "projects" c2pages { per_page := some 2 } c2A 1 10
    "1" le_rfl (by decide) ?_ ?_ ?_ ?_ rfl (by decide) rfl
  · intro k h1 h2
    interval_cases k
    decide
  · intro k h1 h2
    interval_cases k
    rfl
  · intro k h1 h2
    interval_cases k
    rfl
  · intro k h1 h2
    omega

/-! ## C10: a late non-array page discards the accumulated items -/

/-- C10 counterexample: in the run `c10pages` page 1 (the only page below
N = 2) is exactly full and page 2's payload is a non-array object, so the
claim predicts that the page-2 payload is returned bare; but page 1's
`X-Total-Pages: 1` header stops the run at page 1 and the code returns a
collection envelope (`isRaw = false`), never fetching page 2. -/
theorem c10_counterexample :
    GitLabAPI.paginatedRequest cEx "projects" c10pages { per_page := some 1 } 10
      = some (.envelope [.num 1] 1 (some 1) none [("X-Total-Pages", "1")], 1) ∧
    (PagOutcome.envelope [.num 1] 1 (some 1) none
        [("X-Total-Pages", "1")]).isRaw = false :=
  ⟨rfl, rfl⟩

/-- C10 corrected: for every run in which pages 1..N-1 (N >= 2) are exactly
full arrays, *none of them carries an `X-Total-Pages` header* (the
amendment forced by `c10_counterexample`), and page N's 2xx payload is not
an array, `_paginatedRequest` returns exactly that page-N payload bare —
the items accumulated from pages 1..N-1 are discarded and appear nowhere in
the returned value — after N requests. -/
theorem c10_amended (c : GitLabClient) (endpoint : String)
    (pages : Nat → HttpResponse) (opts : RequestOptions) (A : Nat → List Json)
    (N fuel : Nat) (hN : 2 ≤ N) (hfuel : N ≤ fuel)
    (hok : ∀ k, 1 ≤ k → k ≤ N → (pages k).ok)
    (harr : ∀ k, 1 ≤ k → k < N → (respData (pages k)).asArray = some (A k))
    (hfull : ∀ k, 1 ≤ k → k < N → (A k).length = opts.perPage)
    (hnh : ∀ k, 1 ≤ k → k < N →
      headerGet (pages k).headers "X-Total-Pages" = none)
    (hna : (respData (pages N)).asArray = none) :
    GitLabAPI.paginatedRequest c endpoint pages opts fuel
      = some (.raw (respData (pages N)), N) := by
  unfold GitLabAPI.paginatedRequest
  obtain ⟨ti2, heq⟩ := paginateLoop_skip c endpoint pages opts.perPage A
    (N - 1) 1 [] none fuel (by omega)
    (fun k hk1 hk2 => hok k hk1 (by omega))
    (fun k hk1 hk2 => harr k hk1 (by omega))
    (fun k hk1 hk2 => hfull k hk1 (by omega))
    (fun k hk1 hk2 => hnh k hk1 (by omega))
  have hp : 1 + (N - 1) = N := by omega
  obtain ⟨g, hg⟩ : ∃ g, fuel - (N - 1) = g + 1 := ⟨fuel - N, by omega⟩
  rw [hp, hg] at heq
  rw [heq, paginateLoop_raw_step c endpoint pages opts.perPage g N
    ([] ++ concatPages A 1 (N - 1)) none ti2
    (hok N (by omega) le_rfl) hna]
  simp [hp]

/-- Witness for C10 amended: after one full page, the non-array page-2
payload is returned bare; the two accumulated items are gone. -/
theorem c10_amended_witness :
    (2 : Nat) ≤ 2 ∧
    GitLabAPI.paginatedRequest cEx "projects" c10bpages
        { per_page := some 2 } 10
      = some (.raw (.json (.obj [("id", .num 1)])), 2) := by
  refine ⟨le_rfl, ?_⟩
  refine c10_amended cEx "projects" c10bpages { per_page := some 2 } c10A 2 10
    le_rfl (by decide) ?_ ?_ ?_ ?_ rfl
  · intro k h1 h2
    interval_cases k <;> decide
  · intro k h1 h2
    interval_cases k
    rfl
  · intro k h1 h2
    interval_cases k
    rfl
  · intro k h1 h2
    interval_cases k
    rfl
